import Mathlib

/-!
Verification of the message-board API (src/routes/api.js).

A shallow embedding of the single routing module of the repository.  The
persistent MongoDB collections (boards, threads, replies) are modelled as
lists of documents inside an explicit `Store`; every route handler becomes a
pure function from a store (plus the request data) to an outcome and the
store after the handler ran.  Timestamps (`Date.now`) are a `Nat` parameter
`now`; MongoDB object ids are `Nat`s drawn from the store's `nextId` counter
(`_id`s are unique keys of each collection).  `bcrypt` is modelled as an
opaque deterministic one-way hash.  An uncaught JavaScript `TypeError`
(reading a property of `null`) aborts the handler; we record it as the
`Outcome.typeError` outcome, paired with the store as it stands at the throw.
-/

namespace MessageBoard

/-- Model of `bcrypt.hash(plaintext, 10)`: an opaque injective digest. -/
def bcryptHash (plaintext : String) : String :=
  "$2b$10$" ++ plaintext

/-- Model of `bcrypt.compare(plaintext, digest)`: true iff the digest is the
hash of the plaintext. -/
def bcryptCompare (plaintext digest : String) : Bool :=
  digest == bcryptHash plaintext

/-- The `replySchema` (api.js lines 37-42).  `text` has no `required`, so a reply
may be stored without a text (modelled as `Option`); `delete_password` and
`reported` carry `select: false` and are stripped from query results. -/
structure ReplyDoc where
  rid : Nat
  text : Option String
  created_on : Nat
  delete_password : String
  reported : Bool
deriving Repr, DecidableEq

/-- The `threadSchema` (api.js lines 44-59).  `text` is `required`; `replies` is
the ordered list of reply `_id` references. -/
structure ThreadDoc where
  tid : Nat
  text : String
  created_on : Nat
  bumped_on : Nat
  delete_password : String
  reported : Bool
  replies : List Nat
deriving Repr, DecidableEq

/-- The `boardSchema` (api.js lines 61-69). -/
structure BoardDoc where
  bid : Nat
  name : String
  threads : List Nat
deriving Repr, DecidableEq

/-- The three MongoDB collections plus the id source. -/
structure Store where
  boards : List BoardDoc
  threads : List ThreadDoc
  replies : List ReplyDoc
  nextId : Nat
deriving Repr, DecidableEq

/-- What a handler run produces.  `redirect`/`success` are the 302/200
responses, `incorrectPassword` the 400 response, `hashError` the rejection
thrown by `bcrypt.hash(undefined, 10)`, `validationError` a mongoose
`required` validation failure on `save()`, and `typeError` an uncaught
JavaScript TypeError (property access on `null`).  `notFound` is the
spec-level NotFound outcome; the theorems below settle whether any handler
ever produces it. -/
inductive Outcome where
  | redirect
  | success
  | incorrectPassword
  | hashError
  | validationError
  | typeError
  | notFound
deriving Repr, DecidableEq

/-- Model of `findOne`: the first document of the collection satisfying the filter,
in natural storage order. -/
def findBy {α : Type} (p : α → Bool) : List α → Option α
  | [] => none
  | x :: xs => if p x then some x else findBy p xs

/-- Model of the query for a board by name. -/
def findBoard (s : Store) (name : String) : Option BoardDoc :=
  findBy (fun b => b.name == name) s.boards

/-- Model of the query for a thread by id. -/
def findThread (s : Store) (tid : Nat) : Option ThreadDoc :=
  findBy (fun t => t.tid == tid) s.threads

/-- Model of the query for a reply by id. -/
def findReply (s : Store) (rid : Nat) : Option ReplyDoc :=
  findBy (fun r => r.rid == rid) s.replies

/-- Model of `save` on a board that already has an id: replaces the
stored document with the same `_id`. -/
def updateBoard (s : Store) (b : BoardDoc) : Store :=
  { s with boards := s.boards.map (fun x => if x.bid == b.bid then b else x) }

/-- Model of `save` on an existing thread. -/
def updateThread (s : Store) (t : ThreadDoc) : Store :=
  { s with threads := s.threads.map (fun x => if x.tid == t.tid then t else x) }

/-- Model of `save` on an existing reply. -/
def updateReply (s : Store) (r : ReplyDoc) : Store :=
  { s with replies := s.replies.map (fun x => if x.rid == r.rid then r else x) }

/-- The `getBoard` helper (api.js lines 75-92): find the board by name, or create and
save a fresh one with an empty thread list. -/
def getBoard (s : Store) (name : String) : BoardDoc × Store :=
  match findBoard s name with
  | some board => (board, s)
  | none =>
      let newBoard : BoardDoc := { bid := s.nextId, name := name, threads := [] }
      (newBoard, { s with boards := s.boards ++ [newBoard], nextId := s.nextId + 1 })

/-- POST `/api/threads/:board` (api.js lines 96-124).  Order of effects as in
the source: hash the password first (a missing password rejects the hash
before anything is written), then resolve/create the board, then save the
new thread (a missing `text` fails the `required` validation at this point,
after the board write), then push the thread onto the board and save it. -/
def postThread (s : Store) (boardName : String) (text delete_password : Option String)
    (now : Nat) : Outcome × Store :=
  match delete_password with
  | none => (.hashError, s)
  | some pw =>
      let hashedPW := bcryptHash pw
      let bs := getBoard s boardName
      match text with
      | none => (.validationError, bs.2)
      | some tx =>
          let newThread : ThreadDoc :=
            { tid := bs.2.nextId, text := tx, created_on := now, bumped_on := now,
              delete_password := hashedPW, reported := false, replies := [] }
          let s2 : Store :=
            { bs.2 with threads := bs.2.threads ++ [newThread], nextId := bs.2.nextId + 1 }
          let board2 := { bs.1 with threads := bs.1.threads ++ [newThread.tid] }
          (.redirect, updateBoard s2 board2)

/-- JavaScript array `slice(begin)`: a negative `begin` counts
from the end of the array, clamped at 0. -/
def jsSlice {α : Type} (l : List α) (begin_ : Int) : List α :=
  let len : Int := l.length
  let start : Int := if begin_ < 0 then max (len + begin_) 0 else min begin_ len
  l.drop start.toNat

/-- Model of populating the replies path: resolve each referenced reply id;
references that match no document are dropped. -/
def populateReplies (s : Store) (rids : List Nat) : List ReplyDoc :=
  rids.filterMap (fun rid => findReply s rid)

/-- A reply as it leaves a read view: the `select: false` fields
(`delete_password`, `reported`) are absent. -/
structure ReplyView where
  rid : Nat
  text : Option String
  created_on : Nat
deriving Repr, DecidableEq

def replyView (r : ReplyDoc) : ReplyView :=
  { rid := r.rid, text := r.text, created_on := r.created_on }

/-- A thread in the board listing (api.js lines 144-153): `select: false`
fields absent, `replycount` added, `replies` truncated by
`replies.slice(replies.length - 3)`. -/
structure ThreadListView where
  tid : Nat
  text : String
  created_on : Nat
  bumped_on : Nat
  replycount : Nat
  replies : List ReplyView
deriving Repr, DecidableEq

def threadListView (s : Store) (t : ThreadDoc) : ThreadListView :=
  let reps := (populateReplies s t.replies).map replyView
  { tid := t.tid, text := t.text, created_on := t.created_on, bumped_on := t.bumped_on,
    replycount := reps.length,
    replies := jsSlice reps ((reps.length : Int) - 3) }

/-- Stable insertion of a thread into a list sorted by `bumped_on`
descending (`.sort({ bumped_on: -1 })`, ties kept in natural order). -/
def insertByBump (t : ThreadDoc) : List ThreadDoc → List ThreadDoc
  | [] => [t]
  | u :: us => if u.bumped_on ≤ t.bumped_on then t :: u :: us else u :: insertByBump t us

def sortByBumpDesc (l : List ThreadDoc) : List ThreadDoc :=
  l.foldr insertByBump []

/-- GET `/api/threads/:board` (api.js lines 125-157): resolve the board
(creating it when absent), fetch the threads referenced by it, sort by
`bumped_on` descending, limit to 10, populate replies, then add `replycount`
and truncate each `replies` array for display. -/
def listRecent (s : Store) (boardName : String) : List ThreadListView × Store :=
  let bs := getBoard s boardName
  let threads := bs.2.threads.filter (fun t => bs.1.threads.contains t.tid)
  let limited := (sortByBumpDesc threads).take 10
  (limited.map (threadListView bs.2), bs.2)

/-- DELETE `/api/threads/:board` (api.js lines 158-178).  The thread is
fetched with only `delete_password` selected; on a `null` thread the
`thread.delete_password` access throws.  On a password match the document is
deleted (`_id` is the collection's unique key), otherwise nothing changes. -/
def deleteThread (s : Store) (thread_id : Nat) (delete_password : String) :
    Outcome × Store :=
  match findThread s thread_id with
  | none => (.typeError, s)
  | some thread =>
      if bcryptCompare delete_password thread.delete_password then
        (.success, { s with threads := s.threads.filter (fun t => !(t.tid == thread_id)) })
      else
        (.incorrectPassword, s)

/-- PUT `/api/threads/:board` (api.js lines 179-194).  The id filter
`thread_id || report_id` resolves to the supplied id (parameter `thread_id` here).
`findByIdAndUpdate` applies `$set: { reported: true }` in the store and
returns the pre-update document, or `null` when no document matches, in
which case the following `thread.save()` throws. -/
def reportThread (s : Store) (thread_id : Nat) : Outcome × Store :=
  match findThread s thread_id with
  | none => (.typeError, s)
  | some thread => (.success, updateThread s { thread with reported := true })

/-- POST `/api/replies/:board` (api.js lines 198-228).  Order of effects as
in the source: hash the password (missing password rejects before any
write), fetch the thread, save the new reply (reply `text` is not required,
so a missing text is accepted), then push the reply onto the thread — which
throws on a `null` thread, after the reply has already been written — and
set `bumped_on` to the reply's `created_on`. -/
def postReply (s : Store) (thread_id : Nat) (text delete_password : Option String)
    (now : Nat) : Outcome × Store :=
  match delete_password with
  | none => (.hashError, s)
  | some pw =>
      let hashedPW := bcryptHash pw
      let threadOpt := findThread s thread_id
      let newReply : ReplyDoc :=
        { rid := s.nextId, text := text, created_on := now,
          delete_password := hashedPW, reported := false }
      let s1 : Store :=
        { s with replies := s.replies ++ [newReply], nextId := s.nextId + 1 }
      match threadOpt with
      | none => (.typeError, s1)
      | some thread =>
          let thread2 :=
            { thread with replies := thread.replies ++ [newReply.rid],
                          bumped_on := newReply.created_on }
          (.redirect, updateThread s1 thread2)

/-- The full thread view of GET `/api/replies/:board` (api.js lines
230-242): the thread with all replies populated; `select: false` fields
absent everywhere.  The handler sends the query result as-is, so a missing
thread id yields `none` (a `null` body). -/
structure ThreadDetailView where
  tid : Nat
  text : String
  created_on : Nat
  bumped_on : Nat
  replies : List ReplyView
deriving Repr, DecidableEq

def getThreadWithReplies (s : Store) (thread_id : Nat) : Option ThreadDetailView :=
  (findThread s thread_id).map (fun t =>
    { tid := t.tid, text := t.text, created_on := t.created_on, bumped_on := t.bumped_on,
      replies := (populateReplies s t.replies).map replyView })

/-- DELETE `/api/replies/:board` (api.js lines 243-270).  The thread is
fetched but never used; the reply is fetched with `delete_password text`
selected (a `null` reply throws at `reply.delete_password`).  On a password
match only the reply's `text` is overwritten with `[deleted]` and saved. -/
def redactReply (s : Store) (thread_id reply_id : Nat) (delete_password : String) :
    Outcome × Store :=
  let _thread := findThread s thread_id
  match findReply s reply_id with
  | none => (.typeError, s)
  | some reply =>
      if bcryptCompare delete_password reply.delete_password then
        (.success, updateReply s { reply with text := some "[deleted]" })
      else
        (.incorrectPassword, s)

/-- PUT `/api/replies/:board` (api.js lines 271-286): like `reportThread`,
on the replies collection. -/
def reportReply (s : Store) (reply_id : Nat) : Outcome × Store :=
  match findReply s reply_id with
  | none => (.typeError, s)
  | some reply => (.success, updateReply s { reply with reported := true })

/-! ## Helper lemmas -/

/-- The scan `findBy` commutes with mapping a function that preserves the filter. -/
theorem findBy_map_congr {α : Type} (f : α → α) (p : α → Bool)
    (hp : ∀ a, p (f a) = p a) :
    ∀ l : List α, findBy p (l.map f) = (findBy p l).map f := by
  intro l
  induction l with
  | nil => rfl
  | cons x xs ih =>
      cases hx : p x with
      | true => simp [findBy, hp, hx]
      | false => simp [findBy, hp, hx, ih]

/-- Updating the record whose key is `key a2` makes it what `findBy` for
that key returns, provided some record with that key exists. -/
theorem findBy_update_found {α : Type} (key : α → Nat) (a2 : α) :
    ∀ l : List α, (findBy (fun x => key x == key a2) l).isSome →
      findBy (fun x => key x == key a2)
          (l.map (fun x => if key x == key a2 then a2 else x)) = some a2 := by
  intro l
  induction l with
  | nil => intro h; simp [findBy] at h
  | cons x xs ih =>
      intro h
      cases hx : key x == key a2 with
      | true => simp [findBy, hx]
      | false =>
          simp only [findBy, hx, Bool.false_eq_true, if_false] at h
          rw [List.map_cons]
          simp only [findBy, hx, Bool.false_eq_true, if_false]
          exact ih h

/-- Updating the record with key `key a2` leaves `findBy` for any other key
unchanged. -/
theorem findBy_update_other {α : Type} (key : α → Nat) (a2 : α) (k : Nat)
    (hne : k ≠ key a2) :
    ∀ l : List α, findBy (fun x => key x == k)
        (l.map (fun x => if key x == key a2 then a2 else x))
      = findBy (fun x => key x == k) l := by
  intro l
  induction l with
  | nil => rfl
  | cons x xs ih =>
      cases hx : key x == key a2 with
      | true =>
          have hxa : key x = key a2 := by simpa using hx
          have h1 : (key a2 == k) = false := by simp; omega
          have h2 : (key x == k) = false := by simp [hxa]; omega
          rw [List.map_cons]
          simp only [findBy, hx, if_true, h1, h2, Bool.false_eq_true, if_false]
          exact ih
      | false =>
          cases hk : key x == k with
          | true => simp [findBy, hx, hk]
          | false =>
              rw [List.map_cons]
              simp only [findBy, hx, hk, Bool.false_eq_true, if_false]
              exact ih

/-- A `findBy` on a key misses after all records with that key are filtered
out. -/
theorem findBy_key_filter_ne {α : Type} (key : α → Nat) (k : Nat) :
    ∀ l : List α, findBy (fun x => key x == k)
        (l.filter (fun x => !(key x == k))) = none := by
  intro l
  induction l with
  | nil => rfl
  | cons x xs ih =>
      cases hx : key x == k with
      | true => simp [List.filter, hx, ih]
      | false => simp [List.filter, findBy, hx, ih]

/-- Any member of `insertByBump t l` is `t` or a member of `l`. -/
theorem mem_insertByBump {t u : ThreadDoc} :
    ∀ {l : List ThreadDoc}, u ∈ insertByBump t l → u = t ∨ u ∈ l := by
  intro l
  induction l with
  | nil => intro h; simpa [insertByBump] using h
  | cons x xs ih =>
      intro h
      by_cases hx : x.bumped_on ≤ t.bumped_on
      · simp only [insertByBump, if_pos hx, List.mem_cons] at h
        rcases h with h | h | h
        · exact Or.inl h
        · exact Or.inr (by simp [h])
        · exact Or.inr (by simp [h])
      · simp only [insertByBump, if_neg hx, List.mem_cons] at h
        rcases h with h | h
        · exact Or.inr (by simp [h])
        · rcases ih h with h1 | h1
          · exact Or.inl h1
          · exact Or.inr (by simp [h1])

/-- Inserting into a list sorted by `bumped_on` descending keeps it sorted. -/
theorem pairwise_insertByBump (t : ThreadDoc) :
    ∀ l : List ThreadDoc,
      l.Pairwise (fun a b => b.bumped_on ≤ a.bumped_on) →
      (insertByBump t l).Pairwise (fun a b => b.bumped_on ≤ a.bumped_on) := by
  intro l
  induction l with
  | nil => intro _; simp [insertByBump]
  | cons x xs ih =>
      intro h
      rcases List.pairwise_cons.mp h with ⟨hx, hxs⟩
      by_cases hcmp : x.bumped_on ≤ t.bumped_on
      · rw [insertByBump, if_pos hcmp]
        refine List.pairwise_cons.mpr ⟨?_, h⟩
        intro u hu
        rcases List.mem_cons.mp hu with rfl | hu
        · exact hcmp
        · exact le_trans (hx u hu) hcmp
      · rw [insertByBump, if_neg hcmp]
        refine List.pairwise_cons.mpr ⟨?_, ih hxs⟩
        intro u hu
        rcases mem_insertByBump hu with rfl | hu
        · omega
        · exact hx u hu

/-- The sort `sortByBumpDesc` orders by `bumped_on` descending. -/
theorem pairwise_sortByBumpDesc (l : List ThreadDoc) :
    (sortByBumpDesc l).Pairwise (fun a b => b.bumped_on ≤ a.bumped_on) := by
  induction l with
  | nil => simp [sortByBumpDesc]
  | cons x xs ih => exact pairwise_insertByBump x _ ih

/-- The step `insertByBump` commutes with mapping a `bumped_on`-preserving function. -/
theorem insertByBump_map (f : ThreadDoc → ThreadDoc)
    (hf : ∀ t, (f t).bumped_on = t.bumped_on) (t : ThreadDoc) :
    ∀ l : List ThreadDoc,
      insertByBump (f t) (l.map f) = (insertByBump t l).map f := by
  intro l
  induction l with
  | nil => rfl
  | cons x xs ih =>
      by_cases hx : x.bumped_on ≤ t.bumped_on
      · simp [insertByBump, hf, hx]
      · simp [insertByBump, hf, hx, ih]

/-- The sort `sortByBumpDesc` commutes with mapping a `bumped_on`-preserving
function. -/
theorem sortByBumpDesc_map (f : ThreadDoc → ThreadDoc)
    (hf : ∀ t, (f t).bumped_on = t.bumped_on) :
    ∀ l : List ThreadDoc, sortByBumpDesc (l.map f) = (sortByBumpDesc l).map f := by
  intro l
  induction l with
  | nil => rfl
  | cons x xs ih =>
      simp only [sortByBumpDesc, List.map_cons, List.foldr_cons] at *
      rw [ih, insertByBump_map f hf]

/-- Resolving a board never touches the threads collection. -/
theorem getBoard_threads (s : Store) (name : String) :
    ((getBoard s name).2).threads = s.threads := by
  unfold getBoard
  cases findBoard s name <;> rfl

/-- Resolving a board never touches the replies collection. -/
theorem getBoard_replies (s : Store) (name : String) :
    ((getBoard s name).2).replies = s.replies := by
  unfold getBoard
  cases findBoard s name <;> rfl

/-! ## Privileged-field independence (for the view claims)

`scrubStore` erases every stored `delete_password` and `reported` value.
A read view that is unchanged under scrubbing carries no information about
those fields. -/

def scrubReply (r : ReplyDoc) : ReplyDoc :=
  { r with delete_password := "", reported := false }

def scrubThread (t : ThreadDoc) : ThreadDoc :=
  { t with delete_password := "", reported := false }

def scrubStore (s : Store) : Store :=
  { s with threads := s.threads.map scrubThread, replies := s.replies.map scrubReply }

theorem getBoard_scrub (s : Store) (name : String) :
    getBoard (scrubStore s) name = ((getBoard s name).1, scrubStore (getBoard s name).2) := by
  have hb : findBoard (scrubStore s) name = findBoard s name := rfl
  unfold getBoard
  rw [hb]
  cases findBoard s name with
  | some b => rfl
  | none => rfl

theorem findReply_scrub (s : Store) (rid : Nat) :
    findReply (scrubStore s) rid = (findReply s rid).map scrubReply :=
  findBy_map_congr scrubReply (fun r => r.rid == rid) (fun _ => rfl) s.replies

theorem findThread_scrub (s : Store) (tid : Nat) :
    findThread (scrubStore s) tid = (findThread s tid).map scrubThread :=
  findBy_map_congr scrubThread (fun t => t.tid == tid) (fun _ => rfl) s.threads

theorem populateReplies_scrub (s : Store) (rids : List Nat) :
    populateReplies (scrubStore s) rids = (populateReplies s rids).map scrubReply := by
  unfold populateReplies
  rw [List.map_filterMap]
  simp only [findReply_scrub]

theorem map_replyView_scrub (l : List ReplyDoc) :
    (l.map scrubReply).map replyView = l.map replyView := by
  rw [List.map_map]
  rfl

theorem threadListView_scrub (s : Store) (t : ThreadDoc) :
    threadListView (scrubStore s) (scrubThread t) = threadListView s t := by
  unfold threadListView
  have hrep : (scrubThread t).replies = t.replies := rfl
  rw [hrep, populateReplies_scrub, map_replyView_scrub]
  rfl

theorem getThreadWithReplies_scrub (s : Store) (tid : Nat) :
    getThreadWithReplies (scrubStore s) tid = getThreadWithReplies s tid := by
  unfold getThreadWithReplies
  rw [findThread_scrub]
  cases findThread s tid with
  | none => rfl
  | some t =>
      simp only [Option.map_some']
      congr 1
      rw [show (scrubThread t).replies = t.replies from rfl,
        populateReplies_scrub, map_replyView_scrub]
      rfl

/-! ## Claims -/

/-- Claim C1: every thread or reply representation emitted by a read view
(the thread list of `listRecent` and the detail view of
`getThreadWithReplies`) contains neither `delete_password` nor `reported`:
the view record types carry no such field, and the emitted views are
unchanged when every stored `delete_password` and `reported` value is
erased, so they hold no information about those fields. -/
theorem views_independent_of_privileged (s : Store) (boardName : String) (thread_id : Nat) :
    (listRecent (scrubStore s) boardName).1 = (listRecent s boardName).1 ∧
    getThreadWithReplies (scrubStore s) thread_id = getThreadWithReplies s thread_id := by
  refine ⟨?_, getThreadWithReplies_scrub s thread_id⟩
  unfold listRecent
  rw [getBoard_scrub]
  dsimp only
  rw [show (scrubStore (getBoard s boardName).2).threads
        = ((getBoard s boardName).2).threads.map scrubThread from rfl]
  rw [List.filter_map]
  rw [show ((fun t => ((getBoard s boardName).1).threads.contains t.tid) ∘ scrubThread)
        = (fun t => ((getBoard s boardName).1).threads.contains t.tid) from rfl]
  rw [sortByBumpDesc_map scrubThread (fun _ => rfl)]
  rw [← List.map_take, List.map_map]
  rw [show (threadListView (scrubStore (getBoard s boardName).2) ∘ scrubThread)
        = threadListView (getBoard s boardName).2
      from funext (fun t => threadListView_scrub (getBoard s boardName).2 t)]

/-- A `findBy` over an append whose left part has no match scans the right
part. -/
theorem findBy_append_none {α : Type} (p : α → Bool) (l2 : List α) :
    ∀ l1 : List α, findBy p l1 = none → findBy p (l1 ++ l2) = findBy p l2 := by
  intro l1
  induction l1 with
  | nil => intro _; rfl
  | cons x xs ih =>
      intro h
      cases hx : p x with
      | true => simp [findBy, hx] at h
      | false =>
          simp only [findBy, hx, Bool.false_eq_true, if_false] at h
          simp only [List.cons_append, findBy, hx, Bool.false_eq_true, if_false]
          exact ih h

/-- The document `findBy` returns satisfies the filter. -/
theorem findBy_some_sat {α : Type} (p : α → Bool) :
    ∀ (l : List α) (a : α), findBy p l = some a → p a = true := by
  intro l
  induction l with
  | nil => intro a h; simp [findBy] at h
  | cons x xs ih =>
      intro a h
      cases hx : p x with
      | true =>
          simp only [findBy, hx, if_true, Option.some.injEq] at h
          rw [← h]
          exact hx
      | false =>
          simp only [findBy, hx, Bool.false_eq_true, if_false] at h
          exact ih a h

/-- Claim C9: resolving a board name twice in a row yields the same board
record both times and leaves the store of the first call unchanged. -/
theorem getBoard_idempotent (s : Store) (name : String) :
    getBoard (getBoard s name).2 name = getBoard s name := by
  cases h : findBoard s name with
  | some b =>
      have h1 : getBoard s name = (b, s) := by unfold getBoard; rw [h]
      rw [h1]
      exact h1
  | none =>
      have h1 : getBoard s name
          = ({ bid := s.nextId, name := name, threads := [] },
             { s with boards := s.boards ++ [{ bid := s.nextId, name := name, threads := [] }],
                      nextId := s.nextId + 1 }) := by
        unfold getBoard
        rw [h]
      rw [h1]
      have h2 : findBoard
          { s with boards := s.boards ++ [{ bid := s.nextId, name := name, threads := [] }],
                   nextId := s.nextId + 1 } name
          = some { bid := s.nextId, name := name, threads := [] } := by
        unfold findBoard at h ⊢
        rw [findBy_append_none _ _ _ h]
        simp [findBy]
      unfold getBoard
      rw [h2]

/-- Claim C4: the board listing never returns more than 10 threads, and the
returned sequence is ordered by `bumped_on` descending. -/
theorem listRecent_bounded_and_sorted (s : Store) (boardName : String) :
    (listRecent s boardName).1.length ≤ 10 ∧
    (listRecent s boardName).1.Pairwise (fun A B => B.bumped_on ≤ A.bumped_on) := by
  unfold listRecent
  dsimp only
  constructor
  · rw [List.length_map, List.length_take]
    omega
  · rw [List.pairwise_map]
    have hs := pairwise_sortByBumpDesc
      (((getBoard s boardName).2).threads.filter
        (fun t => ((getBoard s boardName).1).threads.contains t.tid))
    have ht := hs.sublist (List.take_sublist 10 _)
    exact ht.imp (fun h => h)

/-! ## Concrete fixtures for witnesses and counterexamples -/

def wReply : ReplyDoc :=
  { rid := 2, text := some "hi", created_on := 5,
    delete_password := bcryptHash "p2", reported := false }

def wThread : ThreadDoc :=
  { tid := 1, text := "hello", created_on := 3, bumped_on := 5,
    delete_password := bcryptHash "p1", reported := false, replies := [2] }

def wBoard : BoardDoc := { bid := 0, name := "general", threads := [1] }

def wStore : Store :=
  { boards := [wBoard], threads := [wThread], replies := [wReply], nextId := 3 }

def emptyStore : Store := { boards := [], threads := [], replies := [], nextId := 0 }

/-- Claim C2: deleting an existing thread with a password that fails
verification returns the incorrect-password outcome and leaves the store
untouched; deleting it with the correct password succeeds and a subsequent
full retrieval of the same thread id finds nothing. -/
theorem deleteThread_credential_check (s : Store) (thread_id : Nat) (t : ThreadDoc)
    (h : findThread s thread_id = some t) (pw : String) :
    (bcryptCompare pw t.delete_password = false →
       deleteThread s thread_id pw = (Outcome.incorrectPassword, s)) ∧
    (bcryptCompare pw t.delete_password = true →
       (deleteThread s thread_id pw).1 = Outcome.success ∧
       findThread (deleteThread s thread_id pw).2 thread_id = none ∧
       getThreadWithReplies (deleteThread s thread_id pw).2 thread_id = none) := by
  unfold deleteThread
  rw [h]
  dsimp only
  constructor
  · intro hpw
    simp only [hpw, Bool.false_eq_true, if_false]
  · intro hpw
    simp only [if_pos hpw]
    refine ⟨by trivial, ?_, ?_⟩
    · exact findBy_key_filter_ne ThreadDoc.tid thread_id s.threads
    · unfold getThreadWithReplies
      rw [show findThread
            { s with threads := s.threads.filter (fun t => !(t.tid == thread_id)) } thread_id
          = none from findBy_key_filter_ne ThreadDoc.tid thread_id s.threads]
      rfl

/-- Witness for C2 at a concrete store: one thread, one wrong and one
correct password. -/
theorem deleteThread_credential_check_witness :
    findThread wStore 1 = some wThread ∧
    bcryptCompare "bad" wThread.delete_password = false ∧
    bcryptCompare "p1" wThread.delete_password = true ∧
    deleteThread wStore 1 "bad" = (Outcome.incorrectPassword, wStore) ∧
    (deleteThread wStore 1 "p1").1 = Outcome.success ∧
    getThreadWithReplies (deleteThread wStore 1 "p1").2 1 = none := by
  refine ⟨rfl, by decide, by decide, ?_, ?_, ?_⟩
  · exact (deleteThread_credential_check wStore 1 wThread rfl "bad").1 (by decide)
  · exact ((deleteThread_credential_check wStore 1 wThread rfl "p1").2 (by decide)).1
  · exact ((deleteThread_credential_check wStore 1 wThread rfl "p1").2 (by decide)).2.2

/-- Claim C3: redacting an existing reply with the correct password
succeeds, overwrites only that reply's text with the fixed marker
`[deleted]` (its id, creation date, password digest and reported flag are
those of the original), leaves boards, threads, the id counter and every
other reply unchanged, and the reply is still present — with the redacted
text — in the parent thread's detail view afterwards. -/
theorem redactReply_success_frame (s : Store) (thread_id reply_id : Nat) (pw : String)
    (r : ReplyDoc) (hr : findReply s reply_id = some r)
    (hpw : bcryptCompare pw r.delete_password = true) :
    (redactReply s thread_id reply_id pw).1 = Outcome.success ∧
    ((redactReply s thread_id reply_id pw).2).boards = s.boards ∧
    ((redactReply s thread_id reply_id pw).2).threads = s.threads ∧
    ((redactReply s thread_id reply_id pw).2).nextId = s.nextId ∧
    findReply ((redactReply s thread_id reply_id pw).2) reply_id
      = some { r with text := some "[deleted]" } ∧
    (∀ rid, rid ≠ reply_id →
       findReply ((redactReply s thread_id reply_id pw).2) rid = findReply s rid) ∧
    (∀ ptid pt, findThread s ptid = some pt → reply_id ∈ pt.replies →
       ∃ v, getThreadWithReplies ((redactReply s thread_id reply_id pw).2) ptid = some v ∧
         ({ rid := reply_id, text := some "[deleted]", created_on := r.created_on } : ReplyView)
           ∈ v.replies) := by
  have hrid : r.rid = reply_id := by
    have := findBy_some_sat (fun x : ReplyDoc => x.rid == reply_id) s.replies r hr
    simpa using this
  have hred : redactReply s thread_id reply_id pw
      = (Outcome.success, updateReply s { r with text := some "[deleted]" }) := by
    unfold redactReply
    rw [hr]
    dsimp only
    rw [if_pos hpw]
  have hsome : (findBy (fun x : ReplyDoc =>
      x.rid == ({ r with text := some "[deleted]" } : ReplyDoc).rid) s.replies).isSome := by
    have hr2 : findBy (fun x : ReplyDoc => x.rid == reply_id) s.replies = some r := hr
    have : ({ r with text := some "[deleted]" } : ReplyDoc).rid = reply_id := hrid
    rw [this, hr2]
    rfl
  have hfound : findReply (updateReply s { r with text := some "[deleted]" }) reply_id
      = some { r with text := some "[deleted]" } := by
    rw [← hrid]
    exact findBy_update_found ReplyDoc.rid
      ({ r with text := some "[deleted]" } : ReplyDoc) s.replies hsome
  rw [hred]
  refine ⟨rfl, rfl, rfl, rfl, hfound, ?_, ?_⟩
  · intro rid hne
    have hne2 : rid ≠ ({ r with text := some "[deleted]" } : ReplyDoc).rid := by
      have heq : ({ r with text := some "[deleted]" } : ReplyDoc).rid = reply_id := hrid
      rw [heq]
      exact hne
    exact findBy_update_other ReplyDoc.rid
      ({ r with text := some "[deleted]" } : ReplyDoc) rid hne2 s.replies
  · intro ptid pt hpt hmem
    have hft : findThread (updateReply s { r with text := some "[deleted]" }) ptid
        = some pt := hpt
    refine ⟨{ tid := pt.tid, text := pt.text, created_on := pt.created_on,
              bumped_on := pt.bumped_on,
              replies := (populateReplies (updateReply s { r with text := some "[deleted]" })
                pt.replies).map replyView }, ?_, ?_⟩
    · unfold getThreadWithReplies
      rw [hft]
      rfl
    · apply List.mem_map.mpr
      refine ⟨{ r with text := some "[deleted]" }, ?_, ?_⟩
      · apply List.mem_filterMap.mpr
        exact ⟨reply_id, hmem, hfound⟩
      · simp [replyView, hrid]

/-- Witness for C3: redacting the reply of the one-thread fixture store with
its correct password. -/
theorem redactReply_success_frame_witness :
    findReply wStore 2 = some wReply ∧
    bcryptCompare "p2" wReply.delete_password = true ∧
    (redactReply wStore 1 2 "p2").1 = Outcome.success ∧
    findReply (redactReply wStore 1 2 "p2").2 2
      = some { wReply with text := some "[deleted]" } ∧
    ((redactReply wStore 1 2 "p2").2).threads = wStore.threads := by
  refine ⟨rfl, by decide, ?_, ?_, ?_⟩
  · exact (redactReply_success_frame wStore 1 2 "p2" wReply rfl (by decide)).1
  · exact (redactReply_success_frame wStore 1 2 "p2" wReply rfl (by decide)).2.2.2.2.1
  · exact (redactReply_success_frame wStore 1 2 "p2" wReply rfl (by decide)).2.2.1

/-- Claim C10: for an existing reply, the outcome of redaction does not
depend on the thread id supplied alongside it — the same store change and
response result for any two thread ids, and the outcome is decided by the
reply's digest alone. -/
theorem redactReply_independent_of_thread_id (s : Store) (tid1 tid2 reply_id : Nat)
    (pw : String) (r : ReplyDoc) (hr : findReply s reply_id = some r) :
    redactReply s tid1 reply_id pw = redactReply s tid2 reply_id pw ∧
    (bcryptCompare pw r.delete_password = true →
       (redactReply s tid1 reply_id pw).1 = Outcome.success) ∧
    (bcryptCompare pw r.delete_password = false →
       redactReply s tid1 reply_id pw = (Outcome.incorrectPassword, s)) := by
  refine ⟨rfl, ?_, ?_⟩
  · intro hpw
    unfold redactReply
    rw [hr]
    dsimp only
    rw [if_pos hpw]
  · intro hpw
    unfold redactReply
    rw [hr]
    dsimp only
    simp only [hpw, Bool.false_eq_true, if_false]

/-- Witness for C10: the fixture reply, redacted via an existing thread id
and via a dangling one. -/
theorem redactReply_independent_of_thread_id_witness :
    findReply wStore 2 = some wReply ∧
    redactReply wStore 1 2 "p2" = redactReply wStore 999 2 "p2" ∧
    redactReply wStore 1 2 "bad" = (Outcome.incorrectPassword, wStore) := by
  refine ⟨rfl, ?_, ?_⟩
  · exact (redactReply_independent_of_thread_id wStore 1 999 2 "p2" wReply rfl).1
  · exact (redactReply_independent_of_thread_id wStore 1 999 2 "bad" wReply rfl).2.2 (by decide)

/-- Evaluation of `postReply` when the thread exists: the reply is appended
to the replies collection and the thread is updated with the new reference
and `bumped_on = reply.created_on`. -/
theorem postReply_found_eq (s : Store) (thread_id : Nat) (rtext : Option String)
    (pw : String) (now : Nat) (t : ThreadDoc) (h : findThread s thread_id = some t) :
    postReply s thread_id rtext (some pw) now
      = (Outcome.redirect, updateThread
          { s with replies := s.replies ++ [{ rid := s.nextId, text := rtext,
                                              created_on := now,
                                              delete_password := bcryptHash pw,
                                              reported := false }],
                   nextId := s.nextId + 1 }
          { t with replies := t.replies ++ [s.nextId], bumped_on := now }) := by
  unfold postReply
  rw [h]

/-- Claim C6: a freshly created thread has `bumped_on` equal to
`created_on`, and after a successful reply creation the thread's
`bumped_on` equals exactly the new reply's `created_on`. -/
theorem bumped_on_tracks_creation_and_replies (s : Store) (boardName tx pw : String)
    (rtext : Option String) (now thread_id : Nat) (t : ThreadDoc)
    (h : findThread s thread_id = some t) :
    (∃ nt, ((postThread s boardName (some tx) (some pw) now).2).threads
        = s.threads ++ [nt] ∧ nt.bumped_on = nt.created_on) ∧
    (∃ nr t2, ((postReply s thread_id rtext (some pw) now).2).replies
        = s.replies ++ [nr] ∧ nr.created_on = now ∧
       findThread ((postReply s thread_id rtext (some pw) now).2) thread_id = some t2 ∧
       t2.bumped_on = nr.created_on) := by
  have htid : t.tid = thread_id := by
    have := findBy_some_sat (fun x : ThreadDoc => x.tid == thread_id) s.threads t h
    simpa using this
  constructor
  · refine ⟨{ tid := ((getBoard s boardName).2).nextId, text := tx, created_on := now,
              bumped_on := now, delete_password := bcryptHash pw, reported := false,
              replies := [] }, ?_, rfl⟩
    rw [show ((postThread s boardName (some tx) (some pw) now).2).threads
        = ((getBoard s boardName).2).threads
            ++ [{ tid := ((getBoard s boardName).2).nextId, text := tx, created_on := now,
                  bumped_on := now, delete_password := bcryptHash pw, reported := false,
                  replies := [] }] from rfl, getBoard_threads]
  · refine ⟨{ rid := s.nextId, text := rtext, created_on := now,
              delete_password := bcryptHash pw, reported := false },
            { t with replies := t.replies ++ [s.nextId], bumped_on := now },
            ?_, rfl, ?_, rfl⟩
    · rw [postReply_found_eq s thread_id rtext pw now t h]
      rfl
    · rw [postReply_found_eq s thread_id rtext pw now t h]
      have hsome2 : (findBy (fun x : ThreadDoc => x.tid ==
          ({ t with replies := t.replies ++ [s.nextId], bumped_on := now } : ThreadDoc).tid)
          s.threads).isSome := by
        have h2 : findBy (fun x : ThreadDoc => x.tid == thread_id) s.threads = some t := h
        rw [show ({ t with replies := t.replies ++ [s.nextId], bumped_on := now } :
            ThreadDoc).tid = thread_id from htid, h2]
        rfl
      rw [← htid]
      exact findBy_update_found ThreadDoc.tid
        ({ t with replies := t.replies ++ [s.nextId], bumped_on := now } : ThreadDoc)
        s.threads hsome2

/-- Witness for C6 on the fixture store: create a thread on board "general"
and a reply on thread 1, both at time 7. -/
theorem bumped_on_tracks_creation_and_replies_witness :
    findThread wStore 1 = some wThread ∧
    (∃ nt, ((postThread wStore "general" (some "x") (some "q") 7).2).threads
        = wStore.threads ++ [nt] ∧ nt.bumped_on = nt.created_on) ∧
    (∃ nr t2, ((postReply wStore 1 (some "y") (some "q") 7).2).replies
        = wStore.replies ++ [nr] ∧ nr.created_on = 7 ∧
       findThread ((postReply wStore 1 (some "y") (some "q") 7).2) 1 = some t2 ∧
       t2.bumped_on = nr.created_on) := by
  refine ⟨rfl, ?_, ?_⟩
  · exact (bumped_on_tracks_creation_and_replies wStore "general" "x" "q"
      (some "y") 7 1 wThread rfl).1
  · exact (bumped_on_tracks_creation_and_replies wStore "general" "x" "q"
      (some "y") 7 1 wThread rfl).2

/-- Counterexample for C7: reporting a thread id that matches no record does
not return the NotFound outcome — the handler dereferences the `null`
query result and dies with a TypeError. -/
theorem report_missing_id_not_notFound :
    (reportThread emptyStore 0).1 = Outcome.typeError ∧
    (reportThread emptyStore 0).1 ≠ Outcome.notFound := by
  exact ⟨rfl, by decide⟩

/-- Claim C7 as amended: for an id matching no record, the full thread view
is the empty (`null`) result sent with a success status, while reporting a
missing thread or reply crashes with a TypeError (store unchanged) instead
of producing a NotFound outcome. -/
theorem missing_id_outcomes (s : Store) (thread_id reply_id : Nat)
    (h1 : findThread s thread_id = none) (h2 : findReply s reply_id = none) :
    getThreadWithReplies s thread_id = none ∧
    reportThread s thread_id = (Outcome.typeError, s) ∧
    reportReply s reply_id = (Outcome.typeError, s) := by
  refine ⟨?_, ?_, ?_⟩
  · unfold getThreadWithReplies
    rw [h1]
    rfl
  · unfold reportThread
    rw [h1]
  · unfold reportReply
    rw [h2]

/-- Witness for C7 (amended) on the empty store. -/
theorem missing_id_outcomes_witness :
    findThread emptyStore 0 = none ∧ findReply emptyStore 0 = none ∧
    getThreadWithReplies emptyStore 0 = none ∧
    reportReply emptyStore 0 = (Outcome.typeError, emptyStore) := by
  refine ⟨rfl, rfl, ?_, ?_⟩
  · exact (missing_id_outcomes emptyStore 0 0 rfl rfl).1
  · exact (missing_id_outcomes emptyStore 0 0 rfl rfl).2.2

/-- Counterexample for C8: creating a reply with no text is not rejected —
the reply is written (reply text carries no `required` constraint) and the
handler redirects as on success. -/
theorem postReply_missing_text_not_rejected :
    (postReply wStore 1 none (some "p3") 9).1 = Outcome.redirect ∧
    (postReply wStore 1 none (some "p3") 9).1 ≠ Outcome.validationError ∧
    ((postReply wStore 1 none (some "p3") 9).2).replies
      = wStore.replies ++ [{ rid := 3, text := none, created_on := 9,
                             delete_password := bcryptHash "p3", reported := false }] := by
  refine ⟨rfl, by decide, rfl⟩

/-- Claim C8 as amended: a missing password fails the hash step before any
store write, for threads and replies alike; a thread creation with missing
text fails validation with no thread or reply written (the board resolve
may however already have created a board); a reply creation with missing
text is not rejected at all — the reply record is created with no text. -/
theorem creation_validation_behaviour (s : Store) (boardName : String) (tx : Option String)
    (pw : String) (now thread_id : Nat) (t : ThreadDoc)
    (h : findThread s thread_id = some t) :
    postThread s boardName tx none now = (Outcome.hashError, s) ∧
    postReply s thread_id tx none now = (Outcome.hashError, s) ∧
    (postThread s boardName none (some pw) now).1 = Outcome.validationError ∧
    ((postThread s boardName none (some pw) now).2).threads = s.threads ∧
    ((postThread s boardName none (some pw) now).2).replies = s.replies ∧
    (postReply s thread_id none (some pw) now).1 = Outcome.redirect ∧
    ((postReply s thread_id none (some pw) now).2).replies
      = s.replies ++ [{ rid := s.nextId, text := none, created_on := now,
                        delete_password := bcryptHash pw, reported := false }] := by
  refine ⟨rfl, rfl, rfl, ?_, ?_, ?_, ?_⟩
  · exact getBoard_threads s boardName
  · exact getBoard_replies s boardName
  · rw [postReply_found_eq s thread_id none pw now t h]
  · rw [postReply_found_eq s thread_id none pw now t h]
    rfl

/-- Witness for C8 (amended) on the fixture store. -/
theorem creation_validation_behaviour_witness :
    findThread wStore 1 = some wThread ∧
    postThread wStore "general" (some "x") none 9 = (Outcome.hashError, wStore) ∧
    (postThread wStore "general" none (some "q") 9).1 = Outcome.validationError ∧
    (postReply wStore 1 none (some "q") 9).1 = Outcome.redirect := by
  refine ⟨rfl, ?_, ?_, ?_⟩
  · exact (creation_validation_behaviour wStore "general" (some "x") "q" 9 1 wThread rfl).1
  · exact (creation_validation_behaviour wStore "general" (some "x") "q" 9 1 wThread rfl).2.2.1
  · exact (creation_validation_behaviour wStore "general" (some "x") "q" 9 1
      wThread rfl).2.2.2.2.2.1

/-- A board whose single thread holds exactly two replies: the failing
input for the claim that the list view shows all replies when fewer than
three exist. -/
def twoReplyStore : Store :=
  { boards := [{ bid := 0, name := "b", threads := [1] }],
    threads := [{ tid := 1, text := "t", created_on := 1, bumped_on := 3,
                  delete_password := bcryptHash "p", reported := false, replies := [2, 3] }],
    replies := [{ rid := 2, text := some "first", created_on := 2,
                  delete_password := bcryptHash "q", reported := false },
                { rid := 3, text := some "second", created_on := 3,
                  delete_password := bcryptHash "q2", reported := false }],
    nextId := 4 }

/-- Claim C5, settled against the code: on a thread with exactly two
replies the list view reports `replycount = 2` but emits only the LAST ONE
reply, not both — `replies.slice(replies.length - 3)` is `slice(-1)` for a
two-element array, which keeps only the final element.  The claim (and the
handler's own comment, "return only the last three items") expect both
replies here. -/
theorem listRecent_two_replies_truncated_to_one :
    (listRecent twoReplyStore "b").1
      = [{ tid := 1, text := "t", created_on := 1, bumped_on := 3, replycount := 2,
           replies := [{ rid := 3, text := some "second", created_on := 3 }] }] := by
  rfl

end MessageBoard
